import Mathlib

/-!
Verification development for the IPTV quick-analysis pipeline
(`src/iptv_quick_analysis.py`).  The definitions below are a shallow
embedding of the Python source: pure parsing/bookkeeping code becomes
Lean functions, the network is an explicit oracle argument, Python
dicts become association lists with dict lookup/insert semantics, and
Python exceptions become `Except` values.  Line numbers in the doc
comments refer to `src/iptv_quick_analysis.py`.
-/

set_option linter.unusedVariables false

namespace IPTV

/-! ## Small string/association-list infrastructure (models Python `in`, `str.lower`, dicts) -/

/-- Substring test on character lists: `containsSub pat hay` is true iff
`pat` occurs contiguously inside `hay` (Python's `pat in hay`). -/
def containsSub (pat : List Char) : List Char → Bool
  | [] => pat.isEmpty
  | c :: t => pat.isPrefixOf (c :: t) || containsSub pat t

/-- Python's `pat in hay` for strings. -/
def strContains (hay pat : String) : Bool := containsSub pat.data hay.data

/-- Python's `s.startswith(pat)`: a prefix test, modelled on the character
lists. -/
def pyStartsWith (s pat : String) : Bool := pat.data.isPrefixOf s.data

/-- Python's `s.lower()`, modelled characterwise (the classifier only compares
against ASCII keywords). -/
def pyLower (s : String) : String := String.mk (s.data.map Char.toLower)

/-- Association-list model of a Python `dict`: lookup of the (unique) binding for a key. -/
def alistGet? {α : Type} : List (String × α) → String → Option α
  | [], _ => none
  | (k', v) :: t, k => if k' = k then some v else alistGet? t k

/-- Association-list model of Python `dict` assignment `d[k] = v`: an existing
binding is overwritten in place (dicts keep the original key position), a new
key is appended at the end (dicts preserve insertion order). -/
def alistSet {α : Type} : List (String × α) → String → α → List (String × α)
  | [], k, v => [(k, v)]
  | (k', v') :: t, k, v => if k' = k then (k, v) :: t else (k', v') :: alistSet t k v

/-- Occurrence count of an element in a list (used to count error kinds). -/
def countOcc (k : String) (l : List String) : Nat := (l.filter (fun x => x = k)).length

/-! ## Error Classifier (source lines 84–97, `categorize_error`) -/

/-- Model of `categorize_error(e)` (lines 84–97): substring inspection of the
lowercased message, in priority order timeout → dns/name resolution →
connection → unknown. The Python argument is an exception object; `str(e)`
is the message string the oracle supplies. -/
def categorize_error (e : String) : String :=
  let msg := pyLower e
  if strContains msg "timeout" then "Timeout"
  else if strContains msg "dns" || strContains msg "name resolution" then "DNSFailure"
  else if strContains msg "connection" then "ConnectionError"
  else "UnknownError"

/-! ## Mirror Advisor (source lines 66–69 and 100–109, `MIRROR_MAP` / `suggest_mirror`) -/

/-- The static mirror table `MIRROR_MAP` (lines 66–69), in dict insertion order. -/
def MIRROR_MAP : List (String × String) :=
  [("iptv-org.github.io", "raw.githubusercontent.com/iptv-org"),
   ("epg.pw", "epgshare01.online")]

/-- Model of `suggest_mirror(url, data)` (lines 100–109): for every table entry
whose key occurs in the url (the Python loop has no break), register
`url.replace(key, mirror)` under `data["mirror_suggestions"][url]`.  The
function returns the updated suggestion table. -/
def suggest_mirror (url : String) (suggestions : List (String × String)) :
    List (String × String) :=
  MIRROR_MAP.foldl
    (fun acc kv =>
      if strContains url kv.1 then alistSet acc url (url.replace kv.1 kv.2) else acc)
    suggestions

/-! ## Endpoint Validator data model (source lines 116–212, `validate_urls`) -/

/-- Outcome of one `requests.head(url, timeout=10)` call, supplied by the
network oracle: either a response (with status code, the library's `ok` flag
and the measured elapsed milliseconds) or a raised exception with message
`str(e)`. -/
inductive Attempt where
  | resp (status_code : Nat) (ok : Bool) (response_ms : Nat)
  | exc (msg : String)
deriving DecidableEq

/-- Whether the attempt terminates the retry loop (`if response.ok: ... break`,
lines 167–170).  An exception never does; a response does iff `ok`. -/
def Attempt.isOk : Attempt → Bool
  | .resp _ ok _ => ok
  | .exc _ => false

/-- Whether the attempt raised an exception (entered the `except` block, line 171). -/
def Attempt.isExc : Attempt → Bool
  | .resp _ _ _ => false
  | .exc _ => true

/-- One entry of `status_history[url]`: the success-shaped dict of lines 154–159
(`timestamp/status_code/ok/response_time_ms`) or the failure-shaped dict of
lines 175–179 (`timestamp/error_type/error_message`). -/
inductive StatusRecord where
  | success (timestamp : String) (status_code : Nat) (ok : Bool) (response_time_ms : Nat)
  | failure (timestamp : String) (error_type : String) (error_message : String)
deriving DecidableEq

/-- A record is failure-shaped (carries an error kind and message). -/
def StatusRecord.isFailure : StatusRecord → Bool
  | .success _ _ _ _ => false
  | .failure _ _ _ => true

/-- The error kind of a failure-shaped record, if any. -/
def StatusRecord.errorType? : StatusRecord → Option String
  | .success _ _ _ _ => none
  | .failure _ et _ => some et

/-- A record witnesses a successful liveness check (response with `ok = true`). -/
def StatusRecord.succeeded : StatusRecord → Bool
  | .success _ _ ok _ => ok
  | .failure _ _ _ => false

/-- The `status_history` record produced by an attempt (lines 154–160 for a
response, 175–180 for an exception). -/
def recordOf (ts : String) : Attempt → StatusRecord
  | .resp c ok ms => .success ts c ok ms
  | .exc msg => .failure ts (categorize_error msg) msg

/-- One entry of `last_status[url]`: the response form of lines 161–165
(`alive = response.ok`, last_checked, response_time_ms) or the exception form
of lines 181–186 (`alive = False`, error kind and message). -/
inductive LastStatus where
  | checked (alive : Bool) (last_checked : String) (response_time_ms : Nat)
  | errored (last_checked : String) (error_type : String) (error_message : String)
deriving DecidableEq

/-- The `alive` field of a `last_status` entry. -/
def LastStatus.isAlive : LastStatus → Bool
  | .checked a _ _ => a
  | .errored _ _ _ => false

/-- The `last_status` entry written by an attempt (lines 161–165 / 181–186). -/
def lastOf (ts : String) : Attempt → LastStatus
  | .resp _ ok ms => .checked ok ts ms
  | .exc msg => .errored ts (categorize_error msg) msg

/-- Observable event inside one URL's retry loop: a `status_history` append,
or a `time.sleep(seconds)` call (line 188). -/
inductive UrlEvent where
  | logged (r : StatusRecord)
  | slept (seconds : Nat)
deriving DecidableEq

/-- Accumulated effects of one URL's retry loop (lines 148–190): the ordered
event trace, the final `last_status` entry, the increments applied to the
summary's alive/dead counters, the error kinds counted into
`summary["errors"]` in order, and the loop's `success` flag. -/
structure UrlOutcome where
  events : List UrlEvent
  last : Option LastStatus
  aliveInc : Nat
  deadInc : Nat
  errorKinds : List String
  success : Bool
deriving DecidableEq

/-- The `status_history` records appended during the loop, in order. -/
def UrlOutcome.records (o : UrlOutcome) : List StatusRecord :=
  o.events.filterMap fun e => match e with
    | .logged r => some r
    | .slept _ => none

/-- The backoff sleeps performed during the loop, in order. -/
def UrlOutcome.sleeps (o : UrlOutcome) : List Nat :=
  o.events.filterMap fun e => match e with
    | .logged _ => none
    | .slept s => some s

/-- One iteration of `for attempt in range(3)` (lines 149–188) at attempt
index `i`: returns the updated accumulator and whether the loop breaks.
A response appends a success record and overwrites `last_status`; if `ok` it
bumps the alive counter, sets `success` and breaks.  An exception classifies
the error, bumps the dead counter and the error-kind tally, appends a failure
record, overwrites `last_status` and sleeps `2 ** attempt` (line 188). -/
def attemptStep (ts : String) (i : Nat) (a : Attempt) (st : UrlOutcome) :
    UrlOutcome × Bool :=
  match a with
  | .resp c ok ms =>
      let st' := { st with
        events := st.events ++ [.logged (.success ts c ok ms)]
        last := some (.checked ok ts ms) }
      if ok then ({ st' with aliveInc := st'.aliveInc + 1, success := true }, true)
      else (st', false)
  | .exc msg =>
      let et := categorize_error msg
      ({ st with
        events := st.events ++ [.logged (.failure ts et msg), .slept (2 ^ i)]
        last := some (.errored ts et msg)
        deadInc := st.deadInc + 1
        errorKinds := st.errorKinds ++ [et] }, false)

/-- The full per-URL retry loop `for attempt in range(3)` with its break
(lines 148–188), unrolled: attempt `i`'s outcome is `env i`. -/
def processUrl (env : Nat → Attempt) (ts : String) : UrlOutcome :=
  let s0 := attemptStep ts 0 (env 0) ⟨[], none, 0, 0, [], false⟩
  if s0.2 then s0.1 else
    let s1 := attemptStep ts 1 (env 1) s0.1
    if s1.2 then s1.1 else (attemptStep ts 2 (env 2) s1.1).1

/-- The pass summary dict (line 141). -/
structure Summary where
  checked : Nat
  alive : Nat
  dead : Nat
  errors : List (String × Nat)
deriving DecidableEq

/-- `summary["errors"][error_type] = summary["errors"].get(error_type, 0) + 1`
(line 174). -/
def bumpError (m : List (String × Nat)) (k : String) : List (String × Nat) :=
  alistSet m k ((alistGet? m k).getD 0 + 1)

/-- The JSON store `playlist_epg_urls.json` as loaded at line 133: the two URL
lists plus the (possibly already populated) history, last-status and mirror
tables from previous passes. -/
structure ValidationData where
  playlist_urls : List String
  epg_urls : List String
  status_history : List (String × List StatusRecord)
  last_status : List (String × LastStatus)
  mirror_suggestions : List (String × String)
deriving DecidableEq

/-- In-flight state of a validation pass: the store being mutated, the summary,
and (instrumentation) the list of URLs for which `suggest_mirror` was called. -/
structure PassState where
  data : ValidationData
  summary : Summary
  mirror_called : List String
deriving DecidableEq

/-- Processing of one URL inside `validate_urls` (lines 146–190):
`summary["checked"] += 1`, the retry loop, the per-attempt mutations of
`status_history`/`last_status`/summary (batched here: appends compose, the
final overwrite of `last_status` is the last attempt's entry, counter
increments commute), and `suggest_mirror` when no attempt succeeded
(lines 189–190). -/
def validateStep (env : String → Nat → Attempt) (ts : String)
    (st : PassState) (url : String) : PassState :=
  let o := processUrl (env url) ts
  let data := st.data
  let data := { data with
    status_history :=
      alistSet data.status_history url
        ((alistGet? data.status_history url).getD [] ++ o.records)
    last_status :=
      match o.last with
      | some ls => alistSet data.last_status url ls
      | none => data.last_status }
  let summary := { st.summary with
    checked := st.summary.checked + 1
    alive := st.summary.alive + o.aliveInc
    dead := st.summary.dead + o.deadInc
    errors := o.errorKinds.foldl bumpError st.summary.errors }
  if o.success then ⟨data, summary, st.mirror_called⟩
  else
    ⟨{ data with mirror_suggestions := suggest_mirror url data.mirror_suggestions },
     summary, st.mirror_called ++ [url]⟩

/-- Result of a validation pass: the updated store, the summary, the
`dead_links.json` snapshot (lines 200–204) and the mirror-call instrumentation. -/
structure ValidateResult where
  data : ValidationData
  summary : Summary
  mirror_called : List String
  dead_links : List (String × LastStatus)
deriving DecidableEq

/-- Model of `validate_urls()` (lines 116–212).  The pass iterates the
`playlist_urls` then the `epg_urls` category (line 143) with a fresh summary
(line 141); afterwards `dead_links` is the comprehension of lines 200–204:
the entries of `last_status` whose `alive` field is false.  `env url i` is the
network oracle for attempt `i` on `url`; `ts` is the single
`datetime.now().isoformat()` taken at line 140. -/
def validate_urls (env : String → Nat → Attempt) (ts : String)
    (input : ValidationData) : ValidateResult :=
  let st := (input.playlist_urls ++ input.epg_urls).foldl (validateStep env ts)
    ⟨input, ⟨0, 0, 0, []⟩, []⟩
  ⟨st.data, st.summary, st.mirror_called,
   st.data.last_status.filter (fun p => !p.2.isAlive)⟩

/-- All `status_history` records appended during a pass over `urls`, in order. -/
def passRecords (env : String → Nat → Attempt) (ts : String) (urls : List String) :
    List StatusRecord :=
  (urls.map fun u => (processUrl (env u) ts).records).flatten

/-- Specification-side view of the retry loop (for comparison with
`processUrl`): the index of the first attempt that succeeds, among the at
most three attempts. -/
def firstOkIdx (env : Nat → Attempt) : Option Nat :=
  (List.range 3).find? (fun i => (env i).isOk)

/-- Specification-side view: the attempt indices the loop actually executes
(everything up to and including the first success, or all three). -/
def executedIdxs (env : Nat → Attempt) : List Nat :=
  match firstOkIdx env with
  | some k => List.range (k + 1)
  | none => List.range 3

/-- Specification-side view: the backoff delays of a URL's retry loop —
`2 ^ i` for every executed attempt `i` that raised an exception, the final
attempt included. -/
def backoffDelays (env : Nat → Attempt) : List Nat :=
  (executedIdxs env).filterMap (fun i => if (env i).isExc then some (2 ^ i) else none)

/-! ## Playlist Extractor (source lines 223–278, `extract_m3u_metadata`) -/

/-- One extracted channel dict (lines 254–262); `matched_epg_id` is the key
added later by `smart_match` (line 443), absent at extraction time. -/
structure ChannelRecord where
  tvgId : String
  tvgName : String
  tvgLogo : String
  tvgGroup : String
  tvgUrl : String
  tvgLanguage : String
  source_url : String
  matched_epg_id : Option String := none
deriving DecidableEq

/-- Drop characters of `hay` up to and including the first occurrence of
`pat`; `none` if `pat` does not occur. -/
def skipPast (pat : List Char) : List Char → Option (List Char)
  | [] => if pat.isEmpty then some [] else none
  | c :: t =>
      if pat.isPrefixOf (c :: t) then some ((c :: t).drop pat.length)
      else skipPast pat t

/-- Characters before the first double quote; `none` if there is no quote. -/
def takeToQuote : List Char → Option (List Char)
  | [] => none
  | c :: t => if c = '"' then some [] else (takeToQuote t).map (c :: ·)

/-- Model of `re.search(r'name="(.*?)"', info)` (lines 249–252): the first
occurrence of `name="` followed by the (non-greedy) capture up to the next
double quote.  If the first occurrence has no closing quote after it, no later
occurrence of `name="` can exist either (it would itself contain a later
quote), so the search fails — the model's single-occurrence scan is exact. -/
def reAttr (name : String) (info : String) : Option String :=
  match skipPast (name.data ++ ['=', '"']) info.data with
  | none => none
  | some rest => (takeToQuote rest).map (fun cs => String.mk cs)

/-- The channel dict built from the `#EXTINF` header at line index `i`
(lines 244–262): the four attributes are extracted independently from
`lines[i]` (empty string when the pattern does not match), the stream URL is
`lines[i+1] if i+1 < len(lines) else ""` (line 246) — the immediately
following line, whatever its content. -/
def extinfChannelAt (lines : List String) (i : Nat) (url : String) : ChannelRecord :=
  let info := lines.getD i ""
  { tvgId := (reAttr "tvg-id" info).getD ""
    tvgName := (reAttr "tvg-name" info).getD ""
    tvgLogo := (reAttr "tvg-logo" info).getD ""
    tvgGroup := (reAttr "group-title" info).getD ""
    tvgUrl := lines.getD (i + 1) ""
    tvgLanguage := "Unknown"
    source_url := url }

/-- The scan over one fetched playlist's lines (lines 243–266): every line
starting with `#EXTINF` yields a candidate record, kept iff its name or id is
non-empty (line 264). -/
def extract_m3u_lines (lines : List String) (url : String) : List ChannelRecord :=
  (List.range lines.length).filterMap fun i =>
    if pyStartsWith (lines.getD i "") "#EXTINF" then
      let ch := extinfChannelAt lines i url
      if ch.tvgName ≠ "" ∨ ch.tvgId ≠ "" then some ch else none
    else none

/-- Model of `extract_m3u_metadata()` (lines 223–278) over a fetch oracle
returning the fetched text's `splitlines()`; a fetch failure on one URL is
logged and skipped (lines 268–269), the records of the other URLs accumulate
in order. -/
def extract_m3u_metadata (fetch : String → Except String (List String))
    (playlist_urls : List String) : List ChannelRecord :=
  playlist_urls.foldl
    (fun acc url =>
      match fetch url with
      | .ok lines => acc ++ extract_m3u_lines lines url
      | .error _ => acc)
    []

/-! ## Guide Extractor (source lines 285–349, `extract_epg_metadata`) -/

/-- Python truthiness of `channel.get("id")` / `findtext` results: `None` and
the empty string are falsy. -/
def falsy : Option String → Bool
  | none => true
  | some s => s.isEmpty

/-- One `<channel>` element of a parsed guide document: `channel.get("id")`
(absent attribute ↦ `none`) and `channel.findtext("display-name")`
(absent child ↦ `none`). -/
structure XmlChannel where
  id : Option String
  displayName : Option String
deriving DecidableEq

/-- One stored EPG entry dict (lines 326–332). -/
structure EpgEntry where
  tvgId : Option String
  tvgEpgId : Option String
  tvgEpgUrl : String
  typeTag : String := "EPG"
  language : String := "unknown"
deriving DecidableEq

/-- The entry list built for one guide URL (lines 317–333): entries with both
id and display-name falsy are skipped (line 322), the rest are stored. -/
def entriesFrom (url : String) (chans : List XmlChannel) : List EpgEntry :=
  chans.filterMap fun c =>
    if falsy c.id && falsy c.displayName then none
    else some { tvgId := c.id, tvgEpgId := c.displayName, tvgEpgUrl := url }

/-- Whether an `Except` computation succeeded. -/
def exceptOk {ε α : Type} : Except ε α → Bool
  | .ok _ => true
  | .error _ => false

/-- Model of `extract_epg_metadata()` (lines 285–349): for each guide URL the
oracle either yields the parsed `<channel>` elements or a fetch/parse
exception; on an exception the URL is logged and skipped (lines 339–340), so
`epg_data[url]` is never assigned and the key is absent; on success
`epg_data[url] = entries` (line 336). -/
def extract_epg_metadata (fetchXml : String → Except String (List XmlChannel))
    (epg_urls : List String) : List (String × List EpgEntry) :=
  epg_urls.foldl
    (fun acc url =>
      match fetchXml url with
      | .ok chans => alistSet acc url (entriesFrom url chans)
      | .error _ => acc)
    []

/-! ## Integrity Auditor (source lines 352–403, `audit_epg_metadata`) -/

/-- The auditor's accumulated state (lines 375–378): the running seen-id set
(as a list of distinct values — note both `None` and `""` can be members), and
the reported anomaly lists. -/
structure AuditState where
  seen : List (Option String)
  duplicates : List (String × Option String)
  null_entries : List (String × EpgEntry)
  empty_sources : List String
deriving DecidableEq

/-- The per-entry branch of the audit walk (lines 385–394): an entry with both
id and name falsy is a null entry; otherwise an entry whose id value is
already in the seen set is a duplicate; otherwise the id value is added to the
seen set — unconditionally, with no emptiness guard. -/
def auditEntry (source : String) (st : AuditState) (e : EpgEntry) : AuditState :=
  if falsy e.tvgId && falsy e.tvgEpgId then
    { st with null_entries := st.null_entries ++ [(source, e)] }
  else if e.tvgId ∈ st.seen then
    { st with duplicates := st.duplicates ++ [(source, e.tvgId)] }
  else
    { st with seen := st.seen ++ [e.tvgId] }

/-- Model of `audit_epg_metadata()`'s walk (lines 380–394): sources with an
empty entry list are recorded as empty sources (lines 381–383); the entries of
non-empty sources are walked in order against the shared seen set. -/
def audit_epg_metadata (epg_data : List (String × List EpgEntry)) : AuditState :=
  epg_data.foldl
    (fun st p =>
      if p.2.isEmpty then { st with empty_sources := st.empty_sources ++ [p.1] }
      else p.2.foldl (auditEntry p.1) st)
    ⟨[], [], [], []⟩

/-- The audit walk over an arbitrary labelled entry sequence (each entry
tagged with its source), against a running state — the inner loop of
`audit_epg_metadata` made uniform so the whole walk can be decomposed. -/
def auditEntries (l : List (String × EpgEntry)) (st : AuditState) : AuditState :=
  l.foldl (fun st p => auditEntry p.1 st p.2) st

/-- The labelled entry sequence that `audit_epg_metadata` walks: the entries
of the non-empty sources in order, each tagged with its source URL. -/
def auditWalk (epg_data : List (String × List EpgEntry)) : List (String × EpgEntry) :=
  ((epg_data.filter (fun p => !p.2.isEmpty)).map
    (fun p => p.2.map (fun e => (p.1, e)))).flatten

/-! ## Deduplicator (source lines 899–926, `deduplicate_channels`) -/

/-- The dedup loop of lines 911–917: a channel is appended to `unique` only
when `tvg_id and tvg_id not in seen` — a channel whose identifier is empty
(falsy) fails the first conjunct and is dropped. -/
def dedupGo : List ChannelRecord → List String → List ChannelRecord
  | [], _ => []
  | ch :: t, seen =>
      if ch.tvgId ≠ "" ∧ ch.tvgId ∉ seen then
        ch :: dedupGo t (ch.tvgId :: seen)
      else dedupGo t seen

/-- Model of `deduplicate_channels()` (lines 899–926) applied to the loaded
channel list. -/
def deduplicate_channels (channels : List ChannelRecord) : List ChannelRecord :=
  dedupGo channels []

/-! ## Reconciler (source lines 411–481, `smart_match` / `fuzzy_match_channel_name`) -/

/-- A Python runtime error surfaced by the embedding. -/
inductive PyError where
  | nameError (missing : String)
deriving DecidableEq

/-- Model of `fuzzy_match_channel_name(channel_name, epg_entries, threshold)`
(lines 461–481).  The first statement (line 473) builds the candidate pool
`epg_names` from the truthy `TVG-EPGID` fields.  The second statement
(line 474) evaluates `difflib.get_close_matches(...)`, but the module's only
difflib import is `from difflib import get_close_matches` (line 49), so the
global name `difflib` is unbound and the call raises
`NameError: name 'difflib' is not defined` on every invocation, before any
matching is performed. -/
def fuzzy_match_channel_name (channel_name : String) (epg_entries : List EpgEntry)
    (threshold : Rat := 85 / 100) : Except PyError (Option String) :=
  let epg_names := epg_entries.filterMap fun e =>
    if falsy e.tvgEpgId then none else some ((e.tvgEpgId).getD "")
  Except.error (PyError.nameError "difflib")

/-- The channel loop of `smart_match` (lines 437–444): channels with a falsy
`TVG-NAME` are skipped; otherwise `fuzzy_match_channel_name` is consulted and
a truthy result is written to `matched_epg_id` with the match counter bumped.
An exception raised by the matcher propagates (the loop has no handler), so
no channel list is ever written back. -/
def smartMatchGo (epg_entries : List EpgEntry) :
    List ChannelRecord → Except PyError (List ChannelRecord × Nat)
  | [] => .ok ([], 0)
  | ch :: t =>
      if ch.tvgName = "" then
        match smartMatchGo epg_entries t with
        | .ok (cs, n) => .ok (ch :: cs, n)
        | .error e => .error e
      else
        match fuzzy_match_channel_name ch.tvgName epg_entries with
        | .error e => .error e
        | .ok (some m) =>
            match smartMatchGo epg_entries t with
            | .ok (cs, n) => .ok ({ ch with matched_epg_id := some m } :: cs, n + 1)
            | .error e => .error e
        | .ok none =>
            match smartMatchGo epg_entries t with
            | .ok (cs, n) => .ok (ch :: cs, n)
            | .error e => .error e

/-- Model of `smart_match()` (lines 411–453): flatten the grouped EPG entries
in group order (lines 432–434) and run the channel loop. -/
def smart_match (channels : List ChannelRecord)
    (epg_grouped : List (String × List EpgEntry)) :
    Except PyError (List ChannelRecord × Nat) :=
  let epg_entries := (epg_grouped.map Prod.snd).flatten
  smartMatchGo epg_entries channels

/-! ## Deduplicator lemmas and claim C1 -/

/-- The dedup loop only ever selects elements of its input, in order. -/
theorem dedupGo_sublist (l : List ChannelRecord) :
    ∀ seen, List.Sublist (dedupGo l seen) l := by
  induction l with
  | nil => intro seen; simp [dedupGo]
  | cons ch t ih =>
      intro seen
      rw [dedupGo]
      split
      · exact List.Sublist.cons₂ ch (ih _)
      · exact List.Sublist.cons ch (ih _)

/-- Every channel kept by the dedup loop has a non-empty identifier. -/
theorem dedupGo_id_ne (l : List ChannelRecord) :
    ∀ seen c, c ∈ dedupGo l seen → c.tvgId ≠ "" := by
  induction l with
  | nil => intro seen c hc; simp [dedupGo] at hc
  | cons ch t ih =>
      intro seen c hc
      rw [dedupGo] at hc
      by_cases h : ch.tvgId ≠ "" ∧ ch.tvgId ∉ seen
      · rw [if_pos h] at hc
        rcases List.mem_cons.mp hc with rfl | hmem
        · exact h.1
        · exact ih _ c hmem
      · rw [if_neg h] at hc
        exact ih _ c hc

/-- Identifiers kept by the dedup loop are pairwise distinct and avoid the
incoming seen set. -/
theorem dedupGo_nodup (l : List ChannelRecord) :
    ∀ seen, ((dedupGo l seen).map (fun c => c.tvgId)).Nodup ∧
      ∀ x ∈ (dedupGo l seen).map (fun c => c.tvgId), x ∉ seen := by
  induction l with
  | nil => intro seen; simp [dedupGo]
  | cons ch t ih =>
      intro seen
      rw [dedupGo]
      by_cases h : ch.tvgId ≠ "" ∧ ch.tvgId ∉ seen
      · rw [if_pos h]
        obtain ⟨hnd, hdisj⟩ := ih (ch.tvgId :: seen)
        constructor
        · simp only [List.map_cons, List.nodup_cons]
          refine ⟨fun hx => ?_, hnd⟩
          exact hdisj _ hx (List.mem_cons_self _ _)
        · intro x hx
          simp only [List.map_cons, List.mem_cons] at hx
          rcases hx with rfl | hx
          · exact h.2
          · exact fun hxs => hdisj _ hx (List.mem_cons_of_mem _ hxs)
      · rw [if_neg h]
        exact ih seen

/-- Claim C1 counterexample: on an input with two records sharing identifier
"bbc1" and one record with an empty identifier, `deduplicate_channels` keeps
only the first "bbc1" record — the identifier-less record is dropped and the
output has 1 record, not the 2 the claim requires. -/
theorem C1_counterexample :
    deduplicate_channels
      [{ tvgId := "bbc1", tvgName := "BBC One", tvgLogo := "", tvgGroup := "UK",
         tvgUrl := "http://a", tvgLanguage := "Unknown", source_url := "u" },
       { tvgId := "bbc1", tvgName := "BBC One Dup", tvgLogo := "", tvgGroup := "UK",
         tvgUrl := "http://b", tvgLanguage := "Unknown", source_url := "u" },
       { tvgId := "", tvgName := "No Id Channel", tvgLogo := "", tvgGroup := "UK",
         tvgUrl := "http://c", tvgLanguage := "Unknown", source_url := "u" }] =
      [{ tvgId := "bbc1", tvgName := "BBC One", tvgLogo := "", tvgGroup := "UK",
         tvgUrl := "http://a", tvgLanguage := "Unknown", source_url := "u" }] ∧
    (deduplicate_channels
      [{ tvgId := "bbc1", tvgName := "BBC One", tvgLogo := "", tvgGroup := "UK",
         tvgUrl := "http://a", tvgLanguage := "Unknown", source_url := "u" },
       { tvgId := "bbc1", tvgName := "BBC One Dup", tvgLogo := "", tvgGroup := "UK",
         tvgUrl := "http://b", tvgLanguage := "Unknown", source_url := "u" },
       { tvgId := "", tvgName := "No Id Channel", tvgLogo := "", tvgGroup := "UK",
         tvgUrl := "http://c", tvgLanguage := "Unknown", source_url := "u" }]).length ≠ 2 := by
  constructor
  · decide
  · decide

/-- Claim C1 (amended): the Deduplicator drops every channel whose identifier
is empty; the output is a stable selection (a sublist) of the input in which
every record has a non-empty identifier and identifiers are pairwise
distinct — so the claim's example input yields 1 record, not 2. -/
theorem C1_amended_ok (channels : List ChannelRecord) :
    List.Sublist (deduplicate_channels channels) channels ∧
    (∀ c ∈ deduplicate_channels channels, c.tvgId ≠ "") ∧
    ((deduplicate_channels channels).map (fun c => c.tvgId)).Nodup := by
  refine ⟨dedupGo_sublist channels [], ?_, (dedupGo_nodup channels []).1⟩
  exact fun c hc => dedupGo_id_ne channels [] c hc

/-- Witness for the amended C1 claim at a concrete input. -/
theorem C1_amended_witness :
    List.Sublist
      (deduplicate_channels
        [{ tvgId := "a", tvgName := "A", tvgLogo := "", tvgGroup := "",
           tvgUrl := "", tvgLanguage := "Unknown", source_url := "u" },
         { tvgId := "", tvgName := "B", tvgLogo := "", tvgGroup := "",
           tvgUrl := "", tvgLanguage := "Unknown", source_url := "u" }])
      [{ tvgId := "a", tvgName := "A", tvgLogo := "", tvgGroup := "",
         tvgUrl := "", tvgLanguage := "Unknown", source_url := "u" },
       { tvgId := "", tvgName := "B", tvgLogo := "", tvgGroup := "",
         tvgUrl := "", tvgLanguage := "Unknown", source_url := "u" }] ∧
    (∀ c ∈ deduplicate_channels
        [{ tvgId := "a", tvgName := "A", tvgLogo := "", tvgGroup := "",
           tvgUrl := "", tvgLanguage := "Unknown", source_url := "u" },
         { tvgId := "", tvgName := "B", tvgLogo := "", tvgGroup := "",
           tvgUrl := "", tvgLanguage := "Unknown", source_url := "u" }], c.tvgId ≠ "") ∧
    ((deduplicate_channels
        [{ tvgId := "a", tvgName := "A", tvgLogo := "", tvgGroup := "",
           tvgUrl := "", tvgLanguage := "Unknown", source_url := "u" },
         { tvgId := "", tvgName := "B", tvgLogo := "", tvgGroup := "",
           tvgUrl := "", tvgLanguage := "Unknown", source_url := "u" }]).map
      (fun c => c.tvgId)).Nodup :=
  C1_amended_ok _

/-! ## Claim C2: the Reconciler's matcher raises NameError -/

/-- Claim C2: the code cannot annotate any channel.  `fuzzy_match_channel_name`
evaluates `difflib.get_close_matches` (line 474) while the module only binds
`get_close_matches` (line 49, a from-import), so the call raises
`NameError: name 'difflib' is not defined` on the claim's own example input,
and `smart_match` aborts on the first channel with a non-empty display name
instead of producing annotations. -/
theorem C2_name_error :
    fuzzy_match_channel_name "BBC One"
      [{ tvgId := some "x", tvgEpgId := some "BBC One HD", tvgEpgUrl := "g" },
       { tvgId := some "y", tvgEpgId := some "ITV1", tvgEpgUrl := "g" }] =
      Except.error (PyError.nameError "difflib") ∧
    fuzzy_match_channel_name "BBC One"
      [{ tvgId := some "x", tvgEpgId := some "BBC One HD", tvgEpgUrl := "g" },
       { tvgId := some "y", tvgEpgId := some "ITV1", tvgEpgUrl := "g" }] (50 / 100) =
      Except.error (PyError.nameError "difflib") ∧
    smart_match
      [{ tvgId := "bbc1", tvgName := "BBC One", tvgLogo := "", tvgGroup := "UK",
         tvgUrl := "http://s", tvgLanguage := "Unknown", source_url := "u" }]
      [("g", [{ tvgId := some "x", tvgEpgId := some "BBC One HD", tvgEpgUrl := "g" },
              { tvgId := some "y", tvgEpgId := some "ITV1", tvgEpgUrl := "g" }])] =
      Except.error (PyError.nameError "difflib") :=
  ⟨rfl, rfl, rfl⟩

/-! ## Integrity Auditor: claim C4 -/

/-- Claim C4 counterexample: two entries with an empty identifier and
non-empty display names.  The walk has no emptiness guard before
`seen_ids.add(tvg_id)` (line 394), so the first entry puts the empty
identifier into the seen set and the second is reported as a duplicate —
contradicting the claim that such entries are never reported. -/
theorem C4_counterexample :
    (audit_epg_metadata
      [("s", [{ tvgId := some "", tvgEpgId := some "Alpha", tvgEpgUrl := "s" },
              { tvgId := some "", tvgEpgId := some "Beta", tvgEpgUrl := "s" }])]).duplicates =
      [("s", some "")] := by
  decide

/-- The walk over one labelled entry is the per-entry branch. -/
theorem auditEntries_cons (p : String × EpgEntry) (l : List (String × EpgEntry))
    (st : AuditState) :
    auditEntries (p :: l) st = auditEntries l (auditEntry p.1 st p.2) := rfl

/-- The walk splits over concatenation. -/
theorem auditEntries_append (a b : List (String × EpgEntry)) (st : AuditState) :
    auditEntries (a ++ b) st = auditEntries b (auditEntries a st) := by
  simp [auditEntries, List.foldl_append]

/-- One audit step never touches the empty-source list. -/
theorem auditEntry_empty_sources (s : String) (st : AuditState) (e : EpgEntry) :
    (auditEntry s st e).empty_sources = st.empty_sources := by
  unfold auditEntry
  by_cases h1 : (falsy e.tvgId && falsy e.tvgEpgId) = true
  · simp [h1]
  · by_cases h2 : e.tvgId ∈ st.seen <;> simp [h1, h2]

/-- The walk never touches the empty-source list. -/
theorem auditEntries_empty_sources (l : List (String × EpgEntry)) :
    ∀ st : AuditState, (auditEntries l st).empty_sources = st.empty_sources := by
  induction l with
  | nil => intro st; rfl
  | cons p t ih =>
      intro st
      rw [auditEntries_cons, ih, auditEntry_empty_sources]

/-- One audit step commutes with overriding the empty-source list. -/
theorem auditEntry_set_empty (s : String) (st : AuditState) (e : EpgEntry)
    (x : List String) :
    auditEntry s { st with empty_sources := x } e =
      { auditEntry s st e with empty_sources := x } := by
  unfold auditEntry
  by_cases h1 : (falsy e.tvgId && falsy e.tvgEpgId) = true
  · simp [h1]
  · by_cases h2 : e.tvgId ∈ st.seen <;> simp [h1, h2]

/-- The walk commutes with overriding the empty-source list. -/
theorem auditEntries_set_empty (l : List (String × EpgEntry)) :
    ∀ (st : AuditState) (x : List String),
      auditEntries l { st with empty_sources := x } =
        { auditEntries l st with empty_sources := x } := by
  induction l with
  | nil => intro st x; rfl
  | cons p t ih =>
      intro st x
      rw [auditEntries_cons, auditEntry_set_empty, ih, auditEntries_cons]

/-- A source's inner loop is the walk over its labelled entries. -/
theorem foldl_auditEntry_map (src : String) (es : List EpgEntry) :
    ∀ st : AuditState,
      es.foldl (auditEntry src) st =
        auditEntries (es.map (fun e => (src, e))) st := by
  induction es with
  | nil => intro st; rfl
  | cons e t ih =>
      intro st
      rw [List.foldl_cons, List.map_cons, auditEntries_cons, ih]

/-- Bridge: `audit_epg_metadata` is the uniform walk over the labelled entries
of the non-empty sources, with the empty sources collected on the side. -/
theorem audit_walk_bridge (epg_data : List (String × List EpgEntry)) :
    audit_epg_metadata epg_data =
      { auditEntries (auditWalk epg_data) ⟨[], [], [], []⟩ with
        empty_sources := (epg_data.filter (fun p => p.2.isEmpty)).map Prod.fst } := by
  have main : ∀ (l : List (String × List EpgEntry)) (st : AuditState),
      l.foldl
        (fun st p =>
          if p.2.isEmpty then { st with empty_sources := st.empty_sources ++ [p.1] }
          else p.2.foldl (auditEntry p.1) st) st =
      { auditEntries (auditWalk l) st with
        empty_sources :=
          st.empty_sources ++ (l.filter (fun p => p.2.isEmpty)).map Prod.fst } := by
    intro l
    induction l with
    | nil =>
        intro st
        cases st
        simp [auditWalk, auditEntries]
    | cons p t ih =>
        intro st
        obtain ⟨src, es⟩ := p
        rw [List.foldl_cons]
        by_cases he : es.isEmpty = true
        · rw [if_pos he, ih, auditEntries_set_empty]
          have hw : auditWalk ((src, es) :: t) = auditWalk t := by
            simp [auditWalk, List.filter_cons, he]
          rw [hw]
          have hf : ((src, es) :: t).filter (fun p => p.2.isEmpty) =
              (src, es) :: t.filter (fun p => p.2.isEmpty) := by
            simp [List.filter_cons, he]
          rw [hf]
          simp
        · rw [if_neg he, foldl_auditEntry_map, ih]
          have hw : auditWalk ((src, es) :: t) =
              es.map (fun e => (src, e)) ++ auditWalk t := by
            simp [auditWalk, List.filter_cons, he]
          rw [hw, auditEntries_append]
          have hf : ((src, es) :: t).filter (fun p => p.2.isEmpty) =
              t.filter (fun p => p.2.isEmpty) := by
            simp [List.filter_cons, he]
          rw [hf, auditEntries_empty_sources]
  exact main epg_data ⟨[], [], [], []⟩

/-- One audit step only grows the seen set. -/
theorem auditEntry_seen_mono (s : String) (st : AuditState) (e : EpgEntry)
    (x : Option String) (hx : x ∈ st.seen) : x ∈ (auditEntry s st e).seen := by
  unfold auditEntry
  by_cases h1 : (falsy e.tvgId && falsy e.tvgEpgId) = true
  · simpa [h1] using hx
  · by_cases h2 : e.tvgId ∈ st.seen <;> simp [h1, h2, hx]

/-- The walk only grows the seen set. -/
theorem auditEntries_seen_mono (l : List (String × EpgEntry)) :
    ∀ (st : AuditState) (x : Option String),
      x ∈ st.seen → x ∈ (auditEntries l st).seen := by
  induction l with
  | nil => intro st x hx; exact hx
  | cons p t ih =>
      intro st x hx
      rw [auditEntries_cons]
      exact ih _ _ (auditEntry_seen_mono _ _ _ _ hx)

/-- After a non-null entry is walked, its identifier value is in the seen
set — unconditionally, the empty value included: either it was already there
(duplicate branch) or the bare `seen_ids.add` of line 394 put it there. -/
theorem auditEntry_seen_add (s : String) (st : AuditState) (e : EpgEntry)
    (h : (falsy e.tvgId && falsy e.tvgEpgId) = false) :
    e.tvgId ∈ (auditEntry s st e).seen := by
  unfold auditEntry
  by_cases h2 : e.tvgId ∈ st.seen <;> simp [h, h2]

/-- One audit step only grows the duplicate list. -/
theorem auditEntry_dup_mono (s : String) (st : AuditState) (e : EpgEntry)
    (d : String × Option String) (hd : d ∈ st.duplicates) :
    d ∈ (auditEntry s st e).duplicates := by
  unfold auditEntry
  by_cases h1 : (falsy e.tvgId && falsy e.tvgEpgId) = true
  · simpa [h1] using hd
  · by_cases h2 : e.tvgId ∈ st.seen <;> simp [h1, h2, hd]

/-- The walk only grows the duplicate list. -/
theorem auditEntries_dup_mono (l : List (String × EpgEntry)) :
    ∀ (st : AuditState) (d : String × Option String),
      d ∈ st.duplicates → d ∈ (auditEntries l st).duplicates := by
  induction l with
  | nil => intro st d hd; exact hd
  | cons p t ih =>
      intro st d hd
      rw [auditEntries_cons]
      exact ih _ _ (auditEntry_dup_mono _ _ _ _ hd)

/-- A non-null entry whose identifier value is already seen is reported as a
duplicate. -/
theorem auditEntry_dup_add (s : String) (st : AuditState) (e : EpgEntry)
    (h : (falsy e.tvgId && falsy e.tvgEpgId) = false)
    (h2 : e.tvgId ∈ st.seen) :
    (s, e.tvgId) ∈ (auditEntry s st e).duplicates := by
  unfold auditEntry
  simp [h, h2]

/-- Claim C4 (amended): the walk adds the identifier value to the seen set
unconditionally (line 394 has no non-emptiness guard); consequently, in any
store whose walked labelled entry sequence contains a non-null entry
`(s1, e1)` and, anywhere later — same source or not — a non-null entry
`(s2, e2)` with the same identifier value (the empty value included, as when
both identifiers are empty strings and the display names are non-empty), the
value ends up in the final seen set and the later entry is reported as a
duplicate `(s2, value)`. -/
theorem C4_amended_ok (epg_data : List (String × List EpgEntry))
    (w1 w2 w3 : List (String × EpgEntry)) (s1 s2 : String) (e1 e2 : EpgEntry)
    (hw : auditWalk epg_data = w1 ++ (s1, e1) :: (w2 ++ (s2, e2) :: w3))
    (h1 : (falsy e1.tvgId && falsy e1.tvgEpgId) = false)
    (h2 : (falsy e2.tvgId && falsy e2.tvgEpgId) = false)
    (hid : e2.tvgId = e1.tvgId) :
    e1.tvgId ∈ (audit_epg_metadata epg_data).seen ∧
    (s2, e2.tvgId) ∈ (audit_epg_metadata epg_data).duplicates := by
  have hdec : auditEntries (auditWalk epg_data) ⟨[], [], [], []⟩ =
      auditEntries w3
        (auditEntry s2
          (auditEntries w2
            (auditEntry s1 (auditEntries w1 ⟨[], [], [], []⟩) e1)) e2) := by
    rw [hw, auditEntries_append, auditEntries_cons, auditEntries_append,
      auditEntries_cons]
  have hseen1 : e1.tvgId ∈
      (auditEntry s1 (auditEntries w1 ⟨[], [], [], []⟩) e1).seen :=
    auditEntry_seen_add s1 _ e1 h1
  have hseen2 : e1.tvgId ∈
      (auditEntries w2
        (auditEntry s1 (auditEntries w1 ⟨[], [], [], []⟩) e1)).seen :=
    auditEntries_seen_mono w2 _ _ hseen1
  have hdup : (s2, e2.tvgId) ∈
      (auditEntry s2
        (auditEntries w2
          (auditEntry s1 (auditEntries w1 ⟨[], [], [], []⟩) e1)) e2).duplicates := by
    apply auditEntry_dup_add s2 _ e2 h2
    rw [hid]
    exact hseen2
  have hseen3 : e1.tvgId ∈
      (auditEntry s2
        (auditEntries w2
          (auditEntry s1 (auditEntries w1 ⟨[], [], [], []⟩) e1)) e2).seen :=
    auditEntry_seen_mono s2 _ e2 _ hseen2
  have hb := audit_walk_bridge epg_data
  constructor
  · rw [hb]
    show e1.tvgId ∈ (auditEntries (auditWalk epg_data) ⟨[], [], [], []⟩).seen
    rw [hdec]
    exact auditEntries_seen_mono w3 _ _ hseen3
  · rw [hb]
    show (s2, e2.tvgId) ∈
      (auditEntries (auditWalk epg_data) ⟨[], [], [], []⟩).duplicates
    rw [hdec]
    exact auditEntries_dup_mono w3 _ _ hdup

/-- Witness for the amended C4 claim: a single source with two empty-string
identifiers and non-empty display names. -/
theorem C4_amended_witness :
    auditWalk
      [("s", [{ tvgId := some "", tvgEpgId := some "Alpha", tvgEpgUrl := "s" },
              { tvgId := some "", tvgEpgId := some "Beta", tvgEpgUrl := "s" }])] =
      [] ++ ("s", { tvgId := some "", tvgEpgId := some "Alpha", tvgEpgUrl := "s" }) ::
        ([] ++ ("s", { tvgId := some "", tvgEpgId := some "Beta", tvgEpgUrl := "s" }) :: []) ∧
    some "" ∈ (audit_epg_metadata
      [("s", [{ tvgId := some "", tvgEpgId := some "Alpha", tvgEpgUrl := "s" },
              { tvgId := some "", tvgEpgId := some "Beta", tvgEpgUrl := "s" }])]).seen ∧
    ("s", some "") ∈ (audit_epg_metadata
      [("s", [{ tvgId := some "", tvgEpgId := some "Alpha", tvgEpgUrl := "s" },
              { tvgId := some "", tvgEpgId := some "Beta", tvgEpgUrl := "s" }])]).duplicates :=
  ⟨by decide,
   (C4_amended_ok
      [("s", [{ tvgId := some "", tvgEpgId := some "Alpha", tvgEpgUrl := "s" },
              { tvgId := some "", tvgEpgId := some "Beta", tvgEpgUrl := "s" }])]
      [] [] [] "s" "s"
      { tvgId := some "", tvgEpgId := some "Alpha", tvgEpgUrl := "s" }
      { tvgId := some "", tvgEpgId := some "Beta", tvgEpgUrl := "s" }
      (by decide) (by decide) (by decide) (by decide)).1,
   (C4_amended_ok
      [("s", [{ tvgId := some "", tvgEpgId := some "Alpha", tvgEpgUrl := "s" },
              { tvgId := some "", tvgEpgId := some "Beta", tvgEpgUrl := "s" }])]
      [] [] [] "s" "s"
      { tvgId := some "", tvgEpgId := some "Alpha", tvgEpgUrl := "s" }
      { tvgId := some "", tvgEpgId := some "Beta", tvgEpgUrl := "s" }
      (by decide) (by decide) (by decide) (by decide)).2⟩

/-! ## Playlist Extractor: claim C5 -/

/-- Claim C5 counterexample: a header line immediately followed by another
marker line takes that marker line as its stream URL (line 246 uses
`lines[i+1]` unconditionally), contrary to the claim that the stream URL is
the following non-marker line. -/
theorem C5_counterexample :
    (extract_m3u_lines
        ["#EXTINF:-1 tvg-id=\"a\"", "#EXTINF:-1 tvg-id=\"b\"", "http://x/s"] "u").map
      (fun c => c.tvgUrl) =
      ["#EXTINF:-1 tvg-id=\"b\"", "http://x/s"] ∧
    pyStartsWith "#EXTINF:-1 tvg-id=\"b\"" "#EXTINF" = true := by
  constructor
  · decide
  · decide

/-- Claim C5 (amended): every extracted record's stream URL is the immediately
following line of the payload whatever its content (marker lines included),
and the empty string exactly when the header is the last line. -/
theorem C5_amended_ok (lines : List String) (url : String) (c : ChannelRecord)
    (hc : c ∈ extract_m3u_lines lines url) :
    ∃ i, i < lines.length ∧ pyStartsWith (lines.getD i "") "#EXTINF" = true ∧
      c = extinfChannelAt lines i url ∧ c.tvgUrl = lines.getD (i + 1) "" := by
  simp only [extract_m3u_lines, List.mem_filterMap, List.mem_range] at hc
  obtain ⟨i, hi, h⟩ := hc
  refine ⟨i, hi, ?_⟩
  by_cases hs : pyStartsWith (lines.getD i "") "#EXTINF" = true
  · rw [if_pos hs] at h
    by_cases hk : (extinfChannelAt lines i url).tvgName ≠ "" ∨
        (extinfChannelAt lines i url).tvgId ≠ ""
    · rw [if_pos hk] at h
      obtain rfl := Option.some.inj h
      exact ⟨hs, rfl, rfl⟩
    · rw [if_neg hk] at h
      exact absurd h (by simp)
  · rw [if_neg hs] at h
    exact absurd h (by simp)

/-- Witness for the amended C5 claim at a concrete payload. -/
theorem C5_amended_witness :
    ({ tvgId := "a", tvgName := "", tvgLogo := "", tvgGroup := "",
       tvgUrl := "#EXTINF:-1 tvg-id=\"b\"", tvgLanguage := "Unknown",
       source_url := "u" } : ChannelRecord) ∈
      extract_m3u_lines
        ["#EXTINF:-1 tvg-id=\"a\"", "#EXTINF:-1 tvg-id=\"b\"", "http://y/s"] "u" ∧
    ∃ i, i < (["#EXTINF:-1 tvg-id=\"a\"", "#EXTINF:-1 tvg-id=\"b\"",
        "http://y/s"] : List String).length ∧
      pyStartsWith ((["#EXTINF:-1 tvg-id=\"a\"", "#EXTINF:-1 tvg-id=\"b\"",
        "http://y/s"] : List String).getD i "") "#EXTINF" = true ∧
      ({ tvgId := "a", tvgName := "", tvgLogo := "", tvgGroup := "",
         tvgUrl := "#EXTINF:-1 tvg-id=\"b\"", tvgLanguage := "Unknown",
         source_url := "u" } : ChannelRecord) =
        extinfChannelAt
          ["#EXTINF:-1 tvg-id=\"a\"", "#EXTINF:-1 tvg-id=\"b\"", "http://y/s"] i "u" ∧
      ({ tvgId := "a", tvgName := "", tvgLogo := "", tvgGroup := "",
         tvgUrl := "#EXTINF:-1 tvg-id=\"b\"", tvgLanguage := "Unknown",
         source_url := "u" } : ChannelRecord).tvgUrl =
        (["#EXTINF:-1 tvg-id=\"a\"", "#EXTINF:-1 tvg-id=\"b\"",
          "http://y/s"] : List String).getD (i + 1) "" :=
  ⟨by decide, C5_amended_ok _ _ _ (by decide)⟩

/-! ## Association-list lemmas shared by the validator and guide-extractor claims -/

/-- Dict assignment followed by lookup behaves pointwise. -/
theorem alistGet?_set {α : Type} (m : List (String × α)) (k k' : String) (v : α) :
    alistGet? (alistSet m k v) k' = if k = k' then some v else alistGet? m k' := by
  induction m with
  | nil => by_cases h : k = k' <;> simp [alistSet, alistGet?, h]
  | cons p t ih =>
      obtain ⟨k0, v0⟩ := p
      by_cases h0 : k0 = k
      · subst h0
        by_cases h' : k0 = k' <;> simp [alistSet, alistGet?, h']
      · by_cases h' : k0 = k'
        · subst h'
          have hne : ¬k = k0 := fun he => h0 he.symm
          simp [alistSet, alistGet?, h0, hne]
        · simp [alistSet, alistGet?, h0, h', ih]

/-- Lookup of a key with no binding yields nothing. -/
theorem alistGet?_eq_none {α : Type} (m : List (String × α)) (k : String)
    (h : k ∉ m.map Prod.fst) : alistGet? m k = none := by
  induction m with
  | nil => rfl
  | cons p t ih =>
      obtain ⟨k0, v0⟩ := p
      simp only [List.map_cons, List.mem_cons] at h
      push_neg at h
      rw [alistGet?, if_neg (fun he => h.1 he.symm)]
      exact ih h.2

/-- The key set after a dict assignment. -/
theorem mem_keys_alistSet {α : Type} (m : List (String × α)) (k : String) (v : α)
    (x : String) :
    x ∈ (alistSet m k v).map Prod.fst ↔ x ∈ m.map Prod.fst ∨ x = k := by
  induction m with
  | nil => simp [alistSet, eq_comm]
  | cons p t ih =>
      obtain ⟨k0, v0⟩ := p
      by_cases h0 : k0 = k
      · subst h0
        rw [alistSet, if_pos rfl]
        simp only [List.map_cons, List.mem_cons]
        tauto
      · rw [alistSet, if_neg h0]
        simp only [List.map_cons, List.mem_cons, ih]
        tauto

/-- Dict assignment preserves distinctness of keys. -/
theorem nodup_keys_alistSet {α : Type} (m : List (String × α)) (k : String) (v : α)
    (h : (m.map Prod.fst).Nodup) : ((alistSet m k v).map Prod.fst).Nodup := by
  induction m with
  | nil => simp [alistSet]
  | cons p t ih =>
      obtain ⟨k0, v0⟩ := p
      simp only [List.map_cons, List.nodup_cons] at h
      obtain ⟨hk0, ht⟩ := h
      by_cases h0 : k0 = k
      · subst h0
        rw [alistSet, if_pos rfl]
        simp only [List.map_cons, List.nodup_cons]
        exact ⟨hk0, ht⟩
      · rw [alistSet, if_neg h0]
        simp only [List.map_cons, List.nodup_cons]
        refine ⟨?_, ih ht⟩
        rw [mem_keys_alistSet]
        rintro (hx | rfl)
        · exact hk0 hx
        · exact h0 rfl

/-- Over a dict with distinct keys, filtering on the value commutes with
lookup: the filtered dict binds `u` to `e` iff the original does and `e`
satisfies the predicate. -/
theorem alistGet?_filter {α : Type} (p : α → Bool) (m : List (String × α))
    (h : (m.map Prod.fst).Nodup) (u : String) (e : α) :
    alistGet? (m.filter (fun q => p q.2)) u = some e ↔
      alistGet? m u = some e ∧ p e = true := by
  induction m with
  | nil => simp [alistGet?]
  | cons q t ih =>
      obtain ⟨k, v⟩ := q
      simp only [List.map_cons, List.nodup_cons] at h
      obtain ⟨hk, ht⟩ := h
      by_cases hku : k = u
      · subst hku
        by_cases hp : p v = true
        · simp only [List.filter_cons, hp, if_pos, alistGet?, if_pos rfl]
          constructor
          · rintro h'
            obtain rfl := Option.some.inj h'
            exact ⟨rfl, hp⟩
          · rintro ⟨h', _⟩
            exact h'
        · have hnone : alistGet? (t.filter fun q => p q.2) k = none := by
            apply alistGet?_eq_none
            intro hmem
            apply hk
            obtain ⟨a, ha, rfl⟩ := List.mem_map.mp hmem
            exact List.mem_map_of_mem Prod.fst (List.mem_of_mem_filter ha)
          simp only [List.filter_cons, hp, if_neg, Bool.false_eq_true, if_false,
            hnone, alistGet?, if_pos rfl]
          constructor
          · rintro h'
            exact absurd h' (by simp)
          · rintro ⟨h', hpe⟩
            obtain rfl := Option.some.inj h'
            exact absurd hpe hp
      · by_cases hp : p v = true <;>
          simp only [List.filter_cons, hp, Bool.false_eq_true, if_true, if_false,
            alistGet?, if_neg hku, ih ht]

/-! ## Guide Extractor: claim C9 -/

/-- The keys present after folding the guide-extraction step over a URL list:
a key is bound iff it was bound before or it is a processed URL whose
fetch/parse succeeded. -/
theorem epg_fold_keys (fetchXml : String → Except String (List XmlChannel)) :
    ∀ (urls : List String) (acc : List (String × List EpgEntry)) (u : String),
      (alistGet? (urls.foldl
        (fun acc url =>
          match fetchXml url with
          | .ok chans => alistSet acc url (entriesFrom url chans)
          | .error _ => acc) acc) u).isSome = true ↔
      (alistGet? acc u).isSome = true ∨ (u ∈ urls ∧ exceptOk (fetchXml u) = true) := by
  intro urls
  induction urls with
  | nil => simp
  | cons v t ih =>
      intro acc u
      rw [List.foldl_cons]
      by_cases hv : v = u
      · subst hv
        cases hf : fetchXml v with
        | ok chans =>
            rw [ih]
            simp [alistGet?_set, exceptOk, hf]
        | error err =>
            rw [ih]
            simp [exceptOk, hf]
      · have hv' : ¬u = v := fun he => hv he.symm
        cases hf : fetchXml v with
        | ok chans =>
            rw [ih]
            simp [alistGet?_set, hv, hv', List.mem_cons]
        | error err =>
            rw [ih]
            simp [hv', List.mem_cons]

/-- Claim C9: the output mapping of guide extraction binds exactly the input
guide URLs whose fetch and parse succeeded; a URL whose fetch or parse failed
is entirely absent (not bound to an empty group), and its failure does not
affect whether other URLs are bound. -/
theorem C9_holds (fetchXml : String → Except String (List XmlChannel))
    (epg_urls : List String) (u : String) :
    (alistGet? (extract_epg_metadata fetchXml epg_urls) u).isSome = true ↔
      u ∈ epg_urls ∧ exceptOk (fetchXml u) = true := by
  have h := epg_fold_keys fetchXml epg_urls [] u
  rw [extract_epg_metadata]
  rw [h]
  simp [alistGet?]

/-! ## Endpoint Validator: claim C6 (backoff placement) -/

/-- Claim C6 counterexample: a URL failing all three attempts.  The sleep at
line 188 is the last statement of the `except` block, so a backoff delay of
`2 ^ 2 = 4` also follows the third (final) failed attempt: the retry loop's
trace ends with a sleep, and three delays occur, not the two the claim
allows. -/
theorem C6_counterexample :
    (processUrl (fun _ => Attempt.exc "boom") "T").events.getLast? =
      some (UrlEvent.slept 4) ∧
    (processUrl (fun _ => Attempt.exc "boom") "T").sleeps = [1, 2, 4] := by
  constructor
  · decide
  · decide

/-- Claim C6 (amended): the retry loop sleeps `2 ^ attempt_index` after every
attempt that raised an exception — the final failed attempt included — and
never after a response (successful or not): the performed delays are exactly
`backoffDelays`. -/
theorem C6_amended_ok (env : Nat → Attempt) (ts : String) :
    (processUrl env ts).sleeps = backoffDelays env := by
  have r1 : List.range 1 = [0] := rfl
  have r2 : List.range 2 = [0, 1] := rfl
  have r3 : List.range 3 = [0, 1, 2] := rfl
  rcases h0 : env 0 with ⟨c0, ok0, m0⟩ | s0 <;>
    rcases h1 : env 1 with ⟨c1, ok1, m1⟩ | s1 <;>
    rcases h2 : env 2 with ⟨c2, ok2, m2⟩ | s2 <;>
    (try cases ok0) <;> (try cases ok1) <;> (try cases ok2) <;>
    simp [processUrl, attemptStep, UrlOutcome.sleeps, backoffDelays, executedIdxs,
      firstOkIdx, r1, r2, r3, h0, h1, h2, Attempt.isOk, Attempt.isExc,
      List.find?_cons, List.filterMap_cons]

/-! ## Endpoint Validator: claim C7 (success on attempt k) -/

/-- A history record witnesses a successful check iff its attempt did. -/
theorem succeeded_recordOf (ts : String) (a : Attempt) :
    (recordOf ts a).succeeded = a.isOk := by
  cases a <;> rfl

/-- A last-status entry is alive iff its attempt succeeded. -/
theorem isAlive_lastOf (ts : String) (a : Attempt) :
    (lastOf ts a).isAlive = a.isOk := by
  cases a <;> rfl

/-- Claim C7: if the liveness check first succeeds on attempt `k ∈ {1,2,3}`
(attempts before it do not succeed — they raise or return a non-ok response),
then exactly `k` records are appended for that URL during the pass: one per
executed attempt, the first `k − 1` not successful and the `k`-th successful,
and the URL's final `last_status` entry has `alive = true`. -/
theorem C7_holds (env : Nat → Attempt) (ts : String) (k : Nat)
    (hk1 : 1 ≤ k) (hk3 : k ≤ 3)
    (hfail : ∀ i, i < k - 1 → (env i).isOk = false)
    (hok : (env (k - 1)).isOk = true) :
    (processUrl env ts).records = (List.range k).map (fun i => recordOf ts (env i)) ∧
    (processUrl env ts).records.length = k ∧
    (∀ i, i < k - 1 → (recordOf ts (env i)).succeeded = false) ∧
    (recordOf ts (env (k - 1))).succeeded = true ∧
    (processUrl env ts).last = some (lastOf ts (env (k - 1))) ∧
    (lastOf ts (env (k - 1))).isAlive = true ∧
    (processUrl env ts).success = true := by
  have hsuccA : ∀ i, i < k - 1 → (recordOf ts (env i)).succeeded = false := by
    intro i hi
    rw [succeeded_recordOf]
    exact hfail i hi
  have hsuccB : (recordOf ts (env (k - 1))).succeeded = true := by
    rw [succeeded_recordOf]; exact hok
  have halive : (lastOf ts (env (k - 1))).isAlive = true := by
    rw [isAlive_lastOf]; exact hok
  have main : (processUrl env ts).records =
      (List.range k).map (fun i => recordOf ts (env i)) ∧
      (processUrl env ts).last = some (lastOf ts (env (k - 1))) ∧
      (processUrl env ts).success = true := by
    interval_cases k
    · have r1 : List.range 1 = [0] := rfl
      have hok' : (env 0).isOk = true := by simpa using hok
      rcases e0 : env 0 with ⟨c0, ok0, m0⟩ | s0
      · rw [e0] at hok'
        simp only [Attempt.isOk] at hok'
        subst hok'
        refine ⟨?_, ?_, ?_⟩ <;>
          simp [processUrl, attemptStep, UrlOutcome.records, recordOf, lastOf, e0, r1]
      · rw [e0] at hok'
        exact absurd hok' (by simp [Attempt.isOk])
    · have r2 : List.range 2 = [0, 1] := rfl
      have hf0 : (env 0).isOk = false := by simpa using hfail 0 (by omega)
      have hok' : (env 1).isOk = true := by simpa using hok
      rcases e0 : env 0 with ⟨c0, ok0, m0⟩ | s0 <;>
        [skip; skip] <;> rcases e1 : env 1 with ⟨c1, ok1, m1⟩ | s1
      all_goals first
        | (rw [e0] at hf0; simp only [Attempt.isOk] at hf0;
           first
            | (subst hf0
               rw [e1] at hok'
               first
                | (simp only [Attempt.isOk] at hok'
                   subst hok'
                   refine ⟨?_, ?_, ?_⟩ <;>
                     simp [processUrl, attemptStep, UrlOutcome.records, recordOf,
                       lastOf, e0, e1, r2])
                | exact absurd hok' (by simp [Attempt.isOk]))
            | (rw [e1] at hok'
               first
                | (simp only [Attempt.isOk] at hok'
                   subst hok'
                   refine ⟨?_, ?_, ?_⟩ <;>
                     simp [processUrl, attemptStep, UrlOutcome.records, recordOf,
                       lastOf, e0, e1, r2])
                | exact absurd hok' (by simp [Attempt.isOk])))
    · have r3 : List.range 3 = [0, 1, 2] := rfl
      have hf0 : (env 0).isOk = false := by simpa using hfail 0 (by omega)
      have hf1 : (env 1).isOk = false := by simpa using hfail 1 (by omega)
      have hok' : (env 2).isOk = true := by simpa using hok
      rcases e2 : env 2 with ⟨c2, ok2, m2⟩ | s2
      · rw [e2] at hok'
        simp only [Attempt.isOk] at hok'
        subst hok'
        rcases e0 : env 0 with ⟨c0, ok0, m0⟩ | s0 <;>
          rcases e1 : env 1 with ⟨c1, ok1, m1⟩ | s1
        all_goals
          first
            | (rw [e0] at hf0; simp only [Attempt.isOk] at hf0; subst hf0
               first
                | (rw [e1] at hf1; simp only [Attempt.isOk] at hf1; subst hf1
                   refine ⟨?_, ?_, ?_⟩ <;>
                     simp [processUrl, attemptStep, UrlOutcome.records, recordOf,
                       lastOf, e0, e1, e2, r3])
                | (refine ⟨?_, ?_, ?_⟩ <;>
                     simp [processUrl, attemptStep, UrlOutcome.records, recordOf,
                       lastOf, e0, e1, e2, r3]))
            | (first
                | (rw [e1] at hf1; simp only [Attempt.isOk] at hf1; subst hf1
                   refine ⟨?_, ?_, ?_⟩ <;>
                     simp [processUrl, attemptStep, UrlOutcome.records, recordOf,
                       lastOf, e0, e1, e2, r3])
                | (refine ⟨?_, ?_, ?_⟩ <;>
                     simp [processUrl, attemptStep, UrlOutcome.records, recordOf,
                       lastOf, e0, e1, e2, r3]))
      · rw [e2] at hok'
        exact absurd hok' (by simp [Attempt.isOk])
  obtain ⟨hrec, hlast, hsuccF⟩ := main
  refine ⟨hrec, ?_, hsuccA, hsuccB, hlast, halive, hsuccF⟩
  rw [hrec]
  simp

/-- Witness for claim C7 at `k = 3`: an exception, then a non-ok response,
then a success. -/
theorem C7_witness :
    (processUrl
      (fun j => if j = 0 then Attempt.exc "boom"
        else if j = 1 then Attempt.resp 500 false 3
        else Attempt.resp 301 true 4) "T").records.length = 3 ∧
    (processUrl
      (fun j => if j = 0 then Attempt.exc "boom"
        else if j = 1 then Attempt.resp 500 false 3
        else Attempt.resp 301 true 4) "T").success = true :=
  ⟨(C7_holds
      (fun j => if j = 0 then Attempt.exc "boom"
        else if j = 1 then Attempt.resp 500 false 3
        else Attempt.resp 301 true 4) "T" 3
      (by decide) (by decide) (by decide) (by decide)).2.1,
   (C7_holds
      (fun j => if j = 0 then Attempt.exc "boom"
        else if j = 1 then Attempt.resp 500 false 3
        else Attempt.resp 301 true 4) "T" 3
      (by decide) (by decide) (by decide) (by decide)).2.2.2.2.2.2⟩

/-! ## Endpoint Validator: claim C10 (non-ok responses) -/

/-- Claim C10: three responses that arrive but are non-ok (for example 404).
Each consumes a retry attempt and appends a success-shaped record with
`ok = false` (no error kind or message by shape), the dead counter and
error-kind map stay untouched, no backoff sleep ever runs (the `except` block
is never entered), the final `last_status` entry has `alive = false`, and
`suggest_mirror` is still invoked for the URL since no attempt succeeded. -/
theorem C10_holds (env : String → Nat → Attempt) (ts u : String)
    (c0 c1 c2 m0 m1 m2 : Nat)
    (h0 : env u 0 = Attempt.resp c0 false m0)
    (h1 : env u 1 = Attempt.resp c1 false m1)
    (h2 : env u 2 = Attempt.resp c2 false m2) :
    (validate_urls env ts ⟨[u], [], [], [], []⟩).data.status_history =
      [(u, [StatusRecord.success ts c0 false m0, StatusRecord.success ts c1 false m1,
            StatusRecord.success ts c2 false m2])] ∧
    (validate_urls env ts ⟨[u], [], [], [], []⟩).summary.dead = 0 ∧
    (validate_urls env ts ⟨[u], [], [], [], []⟩).summary.errors = [] ∧
    (validate_urls env ts ⟨[u], [], [], [], []⟩).summary.alive = 0 ∧
    (processUrl (env u) ts).sleeps = [] ∧
    alistGet? (validate_urls env ts ⟨[u], [], [], [], []⟩).data.last_status u =
      some (LastStatus.checked false ts m2) ∧
    (validate_urls env ts ⟨[u], [], [], [], []⟩).mirror_called = [u] := by
  refine ⟨?_, ?_, ?_, ?_, ?_, ?_, ?_⟩ <;>
    simp [validate_urls, validateStep, processUrl, attemptStep, h0, h1, h2,
      UrlOutcome.records, UrlOutcome.sleeps, alistGet?, alistSet, bumpError]

/-- Witness for claim C10: three 404 responses. -/
theorem C10_witness :
    (fun (_ : String) (i : Nat) => Attempt.resp 404 false (10 + i)) "http://x" 0 =
      Attempt.resp 404 false 10 ∧
    (fun (_ : String) (i : Nat) => Attempt.resp 404 false (10 + i)) "http://x" 1 =
      Attempt.resp 404 false 11 ∧
    (fun (_ : String) (i : Nat) => Attempt.resp 404 false (10 + i)) "http://x" 2 =
      Attempt.resp 404 false 12 ∧
    (validate_urls (fun _ i => Attempt.resp 404 false (10 + i)) "T"
        ⟨["http://x"], [], [], [], []⟩).summary.dead = 0 ∧
    (validate_urls (fun _ i => Attempt.resp 404 false (10 + i)) "T"
        ⟨["http://x"], [], [], [], []⟩).summary.errors = [] ∧
    (processUrl ((fun (_ : String) (i : Nat) => Attempt.resp 404 false (10 + i))
        "http://x") "T").sleeps = [] ∧
    alistGet? (validate_urls (fun _ i => Attempt.resp 404 false (10 + i)) "T"
        ⟨["http://x"], [], [], [], []⟩).data.last_status "http://x" =
      some (LastStatus.checked false "T" 12) ∧
    (validate_urls (fun _ i => Attempt.resp 404 false (10 + i)) "T"
        ⟨["http://x"], [], [], [], []⟩).mirror_called = ["http://x"] :=
  ⟨by decide, by decide, by decide,
   (C10_holds (fun _ i => Attempt.resp 404 false (10 + i)) "T" "http://x"
      404 404 404 10 11 12 (by decide) (by decide) (by decide)).2.1,
   (C10_holds (fun _ i => Attempt.resp 404 false (10 + i)) "T" "http://x"
      404 404 404 10 11 12 (by decide) (by decide) (by decide)).2.2.1,
   (C10_holds (fun _ i => Attempt.resp 404 false (10 + i)) "T" "http://x"
      404 404 404 10 11 12 (by decide) (by decide) (by decide)).2.2.2.2.1,
   (C10_holds (fun _ i => Attempt.resp 404 false (10 + i)) "T" "http://x"
      404 404 404 10 11 12 (by decide) (by decide) (by decide)).2.2.2.2.2.1,
   (C10_holds (fun _ i => Attempt.resp 404 false (10 + i)) "T" "http://x"
      404 404 404 10 11 12 (by decide) (by decide) (by decide)).2.2.2.2.2.2⟩

/-! ## Endpoint Validator: claim C8 (dead-link snapshot) -/

/-- One step of the validation pass keeps the last-status keys distinct. -/
theorem validateStep_keys_nodup (env : String → Nat → Attempt) (ts : String)
    (st : PassState) (url : String)
    (h : (st.data.last_status.map Prod.fst).Nodup) :
    (((validateStep env ts st url).data.last_status).map Prod.fst).Nodup := by
  cases hl : (processUrl (env url) ts).last with
  | some ls =>
      cases hsucc : (processUrl (env url) ts).success <;>
        simp [validateStep, hl, hsucc, nodup_keys_alistSet _ _ _ h]
  | none =>
      cases hsucc : (processUrl (env url) ts).success <;>
        simp [validateStep, hl, hsucc, h]

/-- The whole validation pass keeps the last-status keys distinct. -/
theorem validate_fold_keys_nodup (env : String → Nat → Attempt) (ts : String) :
    ∀ (urls : List String) (st : PassState),
      (st.data.last_status.map Prod.fst).Nodup →
      (((urls.foldl (validateStep env ts) st).data.last_status).map Prod.fst).Nodup := by
  intro urls
  induction urls with
  | nil => intro st h; exact h
  | cons v t ih =>
      intro st h
      rw [List.foldl_cons]
      exact ih _ (validateStep_keys_nodup env ts st v h)

/-- Claim C8: the dead-link snapshot written after a pass is exactly the
restriction of the final `last_status` mapping to entries with
`alive = false`: `u` is bound in the snapshot iff `last_status` binds it to an
entry with `alive = false`, and then to the same entry.  (The loaded store's
`last_status` is a dict, so its keys are distinct.) -/
theorem C8_holds (env : String → Nat → Attempt) (ts : String)
    (input : ValidationData)
    (h : (input.last_status.map Prod.fst).Nodup) (u : String) (e : LastStatus) :
    alistGet? (validate_urls env ts input).dead_links u = some e ↔
      alistGet? (validate_urls env ts input).data.last_status u = some e ∧
        e.isAlive = false := by
  have hn := validate_fold_keys_nodup env ts (input.playlist_urls ++ input.epg_urls)
    ⟨input, ⟨0, 0, 0, []⟩, []⟩ h
  have hfilt : alistGet? ((validate_urls env ts input).dead_links) u = some e ↔
      alistGet? ((validate_urls env ts input).data.last_status) u = some e ∧
        (!e.isAlive) = true :=
    alistGet?_filter (fun v : LastStatus => !v.isAlive) _ hn u e
  rw [hfilt]
  simp

/-- Witness for claim C8 on a store carrying one dead and one alive entry. -/
theorem C8_witness :
    ((([("d", LastStatus.errored "t0" "Timeout" "boom"),
        ("a", LastStatus.checked true "t0" 5)] :
        List (String × LastStatus)).map Prod.fst).Nodup) ∧
    (alistGet? (validate_urls (fun _ _ => Attempt.exc "boom") "T"
        ⟨[], [], [], [("d", LastStatus.errored "t0" "Timeout" "boom"),
          ("a", LastStatus.checked true "t0" 5)], []⟩).dead_links "d" =
      some (LastStatus.errored "t0" "Timeout" "boom") ↔
      alistGet? (validate_urls (fun _ _ => Attempt.exc "boom") "T"
          ⟨[], [], [], [("d", LastStatus.errored "t0" "Timeout" "boom"),
            ("a", LastStatus.checked true "t0" 5)], []⟩).data.last_status "d" =
        some (LastStatus.errored "t0" "Timeout" "boom") ∧
        (LastStatus.errored "t0" "Timeout" "boom").isAlive = false) :=
  ⟨by decide,
   C8_holds (fun _ _ => Attempt.exc "boom") "T"
     ⟨[], [], [], [("d", LastStatus.errored "t0" "Timeout" "boom"),
       ("a", LastStatus.checked true "t0" 5)], []⟩
     (by decide) "d" (LastStatus.errored "t0" "Timeout" "boom")⟩

/-! ## Endpoint Validator: claim C3 (summary dead counter and error map) -/

/-- Per-URL accounting: the dead-counter increment of a retry loop equals the
number of failure records it appended, and the error kinds it tallied are
exactly the kinds of those failure records, in order. -/
theorem processUrl_dead_counts (env : Nat → Attempt) (ts : String) :
    (processUrl env ts).deadInc =
      ((processUrl env ts).records.filter (fun r => r.isFailure)).length ∧
    (processUrl env ts).errorKinds =
      (processUrl env ts).records.filterMap (fun r => r.errorType?) := by
  rcases h0 : env 0 with ⟨c0, ok0, m0⟩ | s0 <;>
    rcases h1 : env 1 with ⟨c1, ok1, m1⟩ | s1 <;>
    rcases h2 : env 2 with ⟨c2, ok2, m2⟩ | s2 <;>
    (try cases ok0) <;> (try cases ok1) <;> (try cases ok2) <;>
    constructor <;>
    simp [processUrl, attemptStep, UrlOutcome.records, StatusRecord.isFailure,
      StatusRecord.errorType?, h0, h1, h2, List.filter_cons, List.filterMap_cons]

/-- The summary's dead counter after one URL: previous value plus the URL's
per-attempt increments. -/
theorem validateStep_summary_dead (env : String → Nat → Attempt) (ts : String)
    (st : PassState) (url : String) :
    (validateStep env ts st url).summary.dead =
      st.summary.dead + (processUrl (env url) ts).deadInc := by
  by_cases hs : (processUrl (env url) ts).success = true <;> simp [validateStep, hs]

/-- The summary's error map after one URL: the URL's tallied kinds folded onto
the previous map. -/
theorem validateStep_summary_errors (env : String → Nat → Attempt) (ts : String)
    (st : PassState) (url : String) :
    (validateStep env ts st url).summary.errors =
      (processUrl (env url) ts).errorKinds.foldl bumpError st.summary.errors := by
  by_cases hs : (processUrl (env url) ts).success = true <;> simp [validateStep, hs]

/-- Occurrence counts add over list concatenation. -/
theorem countOcc_append (k : String) (a b : List String) :
    countOcc k (a ++ b) = countOcc k a + countOcc k b := by
  simp [countOcc, List.filter_append]

/-- Folding the error-map bump over a kind list adds that list's occurrence
counts to every key. -/
theorem bump_count (ks : List String) :
    ∀ (m : List (String × Nat)) (k : String),
      (alistGet? (ks.foldl bumpError m) k).getD 0 =
        (alistGet? m k).getD 0 + countOcc k ks := by
  induction ks with
  | nil => intro m k; simp [countOcc]
  | cons a t ih =>
      intro m k
      rw [List.foldl_cons, ih]
      by_cases h : a = k
      · subst h
        simp [bumpError, alistGet?_set, countOcc, List.filter_cons]
        omega
      · simp [bumpError, alistGet?_set, h, countOcc, List.filter_cons]

/-- Pass records decompose URL by URL. -/
theorem passRecords_cons (env : String → Nat → Attempt) (ts : String)
    (u : String) (t : List String) :
    passRecords env ts (u :: t) =
      (processUrl (env u) ts).records ++ passRecords env ts t := by
  simp [passRecords]

/-- Summary accounting over a whole pass: the dead counter grows by the number
of failure records appended, and each error kind's tally grows by its number
of occurrences among the appended failure records. -/
theorem validate_fold_summary (env : String → Nat → Attempt) (ts : String) :
    ∀ (urls : List String) (st : PassState),
      ((urls.foldl (validateStep env ts) st).summary.dead =
        st.summary.dead +
          ((passRecords env ts urls).filter (fun r => r.isFailure)).length) ∧
      (∀ k, (alistGet? ((urls.foldl (validateStep env ts) st).summary.errors) k).getD 0 =
        (alistGet? st.summary.errors k).getD 0 +
          countOcc k ((passRecords env ts urls).filterMap (fun r => r.errorType?))) := by
  intro urls
  induction urls with
  | nil =>
      intro st
      constructor
      · simp [passRecords]
      · intro k; simp [passRecords, countOcc]
  | cons u t ih =>
      intro st
      rw [List.foldl_cons]
      obtain ⟨ihd, ihe⟩ := ih (validateStep env ts st u)
      constructor
      · rw [ihd, validateStep_summary_dead, (processUrl_dead_counts (env u) ts).1,
          passRecords_cons, List.filter_append, List.length_append]
        omega
      · intro k
        rw [ihe k, validateStep_summary_errors, bump_count,
          (processUrl_dead_counts (env u) ts).2, passRecords_cons,
          List.filterMap_append, countOcc_append]
        omega

/-- Claim C3 counterexample: a URL that fails its first attempt and succeeds
on its second.  The dead counter and the error map are incremented inside the
`except` block (lines 173–174), per failing attempt: the summary reports
`dead = 1` and one `UnknownError`, although the number of URLs that never
produced a successful attempt is 0. -/
theorem C3_counterexample :
    (validate_urls
        (fun _ i => if i = 0 then Attempt.exc "boom" else Attempt.resp 200 true 5)
        "T" ⟨["u"], [], [], [], []⟩).summary.dead = 1 ∧
    ((["u"] : List String).filter (fun v =>
        (processUrl ((fun (_ : String) (i : Nat) =>
          if i = 0 then Attempt.exc "boom" else Attempt.resp 200 true 5) v)
          "T").success = false)).length = 0 ∧
    alistGet? (validate_urls
        (fun _ i => if i = 0 then Attempt.exc "boom" else Attempt.resp 200 true 5)
        "T" ⟨["u"], [], [], [], []⟩).summary.errors "UnknownError" = some 1 := by
  refine ⟨?_, ?_, ?_⟩ <;> decide

/-- Claim C3 (amended): the summary's dead counter equals the total number of
failure records appended during the pass — one per exception-raising attempt,
for all URLs, including URLs that later succeed — and the error map tallies
every classified failing attempt likewise: for each kind, its count is the
number of appended failure records of that kind. -/
theorem C3_amended_ok (env : String → Nat → Attempt) (ts : String)
    (input : ValidationData) :
    (validate_urls env ts input).summary.dead =
      ((passRecords env ts (input.playlist_urls ++ input.epg_urls)).filter
        (fun r => r.isFailure)).length ∧
    ∀ k, (alistGet? (validate_urls env ts input).summary.errors k).getD 0 =
      countOcc k ((passRecords env ts (input.playlist_urls ++ input.epg_urls)).filterMap
        (fun r => r.errorType?)) := by
  obtain ⟨hd, he⟩ := validate_fold_summary env ts
    (input.playlist_urls ++ input.epg_urls) ⟨input, ⟨0, 0, 0, []⟩, []⟩
  constructor
  · rw [show (validate_urls env ts input).summary.dead =
        ((input.playlist_urls ++ input.epg_urls).foldl (validateStep env ts)
          ⟨input, ⟨0, 0, 0, []⟩, []⟩).summary.dead from rfl, hd]
    simp
  · intro k
    rw [show (validate_urls env ts input).summary.errors =
        ((input.playlist_urls ++ input.epg_urls).foldl (validateStep env ts)
          ⟨input, ⟨0, 0, 0, []⟩, []⟩).summary.errors from rfl, he k]
    simp [alistGet?]

end IPTV
